import Mathlib

/-!
Verification of the Lemonade Server model resolver, catalog and wrapped-server
layer. The Python sources (`lemonade/tools/llamacpp/utils.py`,
`lemonade_server/model_manager.py`, `lemonade_server/pydantic_models.py`,
`lemonade/tools/server/flm.py`) are shallowly embedded as executable Lean
functions; file systems, the Hugging Face cache and subprocess effects are
modelled as explicit data (directory listings, walks, state records).

Python strings are modelled by Lean `String`; the handful of `str` methods the
code uses (`lower`, `endswith`, `startswith`, `in`, `split`, `sort`) are
re-implemented below on `List Char` so that everything reduces in the kernel.
-/

namespace Lemonade

/-- Model of Python `str.lower()` (the source only lowercases ASCII names). -/
def lowerS (s : String) : String := ⟨s.data.map Char.toLower⟩

/-- Model of Python `str.endswith(p)`. -/
def endsWithS (s p : String) : Bool := p.data.isSuffixOf s.data

/-- Model of Python `str.startswith(p)`. -/
def startsWithS (s p : String) : Bool := p.data.isPrefixOf s.data

/-- Helper for `containsSub`: substring test on character lists. -/
def containsSubL (needle : List Char) : List Char → Bool
  | [] => needle.isEmpty
  | c :: t => needle.isPrefixOf (c :: t) || containsSubL needle t

/-- Model of Python `needle in hay` on strings (substring containment). -/
def containsSub (needle hay : String) : Bool := containsSubL needle.data hay.data

/-- Helper for `splitFirst`: split a character list at the first separator. -/
def splitFirstL (sep : Char) : List Char → List Char × Option (List Char)
  | [] => ([], none)
  | c :: t =>
    if c = sep then ([], some t)
    else
      let r := splitFirstL sep t
      (c :: r.1, r.2)

/-- Model of Python `s.split(sep, 1)`: the part before the first separator and,
when the separator occurs, the remainder after it. -/
def splitFirst (sep : Char) (s : String) : String × Option String :=
  match splitFirstL sep s.data with
  | (a, some b) => (⟨a⟩, some ⟨b⟩)
  | (a, none) => (⟨a⟩, none)

/-- Lexicographic comparison of character lists by code point, the order Python
uses to sort lists of file names. -/
def strLeL : List Char → List Char → Bool
  | [], _ => true
  | _ :: _, [] => false
  | a :: as, b :: bs => if a = b then strLeL as bs else decide (a.toNat < b.toNat)

/-- Lexicographic order on strings by code point (Python `<=` on `str`). -/
def strLe (a b : String) : Bool := strLeL a.data b.data

instance strLeDecRel : DecidableRel (fun a b : String => strLe a b = true) :=
  fun a b => inferInstanceAs (Decidable (strLe a b = true))

/-- Model of Python `list.sort()` on a list of strings. -/
def sortStr (l : List String) : List String :=
  List.insertionSort (fun a b : String => strLe a b = true) l

/-! ## GGUF variant selection: `identify_gguf_models` in
`src/lemonade/tools/llamacpp/utils.py`. The Hugging Face repository is
represented by its file listing (`list_repo_files`), a list of relative
path strings. -/

/-- The distinct `ValueError` / `IndexError` failures `identify_gguf_models`
can raise, one constructor per `raise` site (plus the `sharded_files[0]`
index error in the wildcard branch when the repo holds no `.gguf` file). -/
inductive GgufError where
  | fileNotFound
  | noGgufFound
  | ambiguousVariant
  | noFilesForVariant
  | indexError
  | mmprojNotFound
deriving DecidableEq, Repr

/-- The value returned by `identify_gguf_models`: the `core_files` dict
(`variant` entry and optional `mmproj` entry) plus `sharded_files`. -/
structure GgufSelection where
  variantName : String
  mmprojFile : Option String
  shardedFiles : List String
deriving DecidableEq, Repr

/-- Wildcard candidates: `[f for f in repo_files if f.endswith(".gguf")]`. -/
def wildcardFiles (repo_files : List String) : List String :=
  repo_files.filter (fun f => endsWithS f ".gguf")

/-- Missing-variant candidates:
`[f for f in repo_files if f.endswith(".gguf") and "mmproj" not in f]`. -/
def noneCandidates (repo_files : List String) : List String :=
  repo_files.filter (fun f => endsWithS f ".gguf" && !containsSub "mmproj" f)

/-- Quantization-suffix candidates: files whose lowercased name ends with
`variant + ".gguf"` lowercased and does not contain `mmproj` lowercased. -/
def suffixMatches (repo_files : List String) (variant : String) : List String :=
  repo_files.filter (fun f =>
    endsWithS (lowerS f) (lowerS (variant ++ ".gguf")) &&
      !containsSub "mmproj" (lowerS f))

/-- Sharded-folder candidates: `.gguf` files whose lowercased name starts with
`variant + "/"` lowercased. -/
def folderFiles (repo_files : List String) (variant : String) : List String :=
  repo_files.filter (fun f =>
    endsWithS f ".gguf" && startsWithS (lowerS f) (lowerS (variant ++ "/")))

/-- `identify_gguf_models(checkpoint, variant, mmproj)`, with the repository's
file listing passed in place of the network call to `list_repo_files`.
Branches in source order: wildcard, exact `.gguf` filename, `variant is None`,
unique case-insensitive suffix match (ambiguous when more than one), sharded
folder. A successful selection is wrapped with the optional `mmproj` entry. -/
def identify_gguf_models (repo_files : List String) (variant : Option String)
    (mmproj : String) : Except GgufError GgufSelection :=
  let core : Except GgufError (String × List String) :=
    match variant with
    | some v =>
      if v = "*" then
        match sortStr (wildcardFiles repo_files) with
        | [] => .error .indexError
        | f :: fs => .ok (f, f :: fs)
      else if endsWithS v ".gguf" then
        if v ∈ repo_files then .ok (v, []) else .error .fileNotFound
      else
        match suffixMatches repo_files v with
        | [u] => .ok (u, [])
        | [] =>
          match sortStr (folderFiles repo_files v) with
          | [] => .error .noFilesForVariant
          | f :: fs => .ok (f, f :: fs)
        | _ => .error .ambiguousVariant
    | none =>
      match noneCandidates repo_files with
      | [] => .error .noGgufFound
      | f :: _ => .ok (f, [])
  match core with
  | .error e => .error e
  | .ok (vname, sharded) =>
    if mmproj ≠ "" then
      if mmproj ∈ repo_files then .ok ⟨vname, some mmproj, sharded⟩
      else .error .mmprojNotFound
    else .ok ⟨vname, none, sharded⟩

/-- `parse_checkpoint(checkpoint)`: split `repo:variant` at the first colon;
no colon means no variant. -/
def parse_checkpoint (checkpoint : String) : String × Option String :=
  if containsSub ":" checkpoint then
    match splitFirst ':' checkpoint with
    | (base, some v) => (base, some v)
    | (base, none) => (base, none)
  else (checkpoint, none)

/-! ## Local cache resolution: `resolve_local_gguf_model` in
`src/lemonade/tools/llamacpp/utils.py`. The `os.walk` traversal of the model's
cache directory is modelled as the list of `(root, files)` pairs it yields, in
walk order; a missing directory is `none`. Joined paths `os.path.join(root, f)`
are modelled as the `(root, f)` pair. -/

/-- The `os.walk` output for one cache directory: each entry is a directory
path together with the plain file names it holds. -/
abbrev CacheWalk := List (String × List String)

/-- The search term for a requested variant:
`variant if variant.endswith(".gguf") else variant + ".gguf"`. -/
def searchTermFor (v : String) : String :=
  if endsWithS v ".gguf" then v else v ++ ".gguf"

/-- First walk entry whose file list contains `term` exactly, as the
`(root, term)` pair; models the `search_term in files` loop (also used for the
`config_mmproj in files` loop). -/
def findFileInWalk (walk : CacheWalk) (term : String) : Option (String × String) :=
  match walk with
  | [] => none
  | (root, files) :: rest =>
    if term ∈ files then some (root, term) else findFileInWalk rest term

/-- Fallback candidates in one directory:
`[f for f in files if f.endswith(".gguf") and "mmproj" not in f.lower()]`. -/
def fallbackCandidates (files : List String) : List String :=
  files.filter (fun f => endsWithS f ".gguf" && !containsSub "mmproj" (lowerS f))

/-- First walk entry holding a fallback candidate, paired with the first such
candidate; models the second `os.walk` loop. -/
def findFallback (walk : CacheWalk) : Option (String × String) :=
  match walk with
  | [] => none
  | (root, files) :: rest =>
    match fallbackCandidates files with
    | [] => findFallback rest
    | f :: _ => some (root, f)

/-- The variant-specific search of `resolve_local_gguf_model`: only runs when
`variant` is truthy (non-`None` and non-empty). -/
def specificSearch (walk : CacheWalk) (variant : Option String) :
    Option (String × String) :=
  match variant with
  | some v => if v ≠ "" then findFileInWalk walk (searchTermFor v) else none
  | none => none

/-- The result dictionary of `resolve_local_gguf_model`: the resolved primary
`.gguf` path and, when found, the resolved `mmproj` path. -/
structure LocalGguf where
  variantPath : String × String
  mmprojPath : Option (String × String)
deriving DecidableEq, Repr

/-- `resolve_local_gguf_model(checkpoint, variant, config_mmproj)`, with the
cache directory's walk passed in place of the `HF_HUB_CACHE` lookup
(`none` when `os.path.exists(model_cache_dir)` is false). -/
def resolve_local_gguf_model (cache : Option CacheWalk) (variant : Option String)
    (config_mmproj : Option String) : Option LocalGguf :=
  match cache with
  | none => none
  | some walk =>
    let found :=
      match specificSearch walk variant with
      | some p => some p
      | none => findFallback walk
    match found with
    | none => none
    | some p =>
      let mm :=
        match config_mmproj with
        | some m => if m ≠ "" then findFileInWalk walk m else none
        | none => none
      some ⟨p, mm⟩

/-! ## The GGUF pull step of `ModelManager.download_models` in
`src/lemonade_server/model_manager.py`: parse the checkpoint, try the local
cache, and call `download_gguf` only when local resolution fails. The effect of
`download_gguf` on the cache is abstracted as a function argument (the
`do_not_upgrade` flag is only forwarded into that call and does not affect the
branch, so it is folded into the abstract download function); the second
component of the result records whether the network download pathway ran. -/

def downloadGgufStep (cache : Option CacheWalk) (checkpoint : String)
    (mmproj : Option String) (download : Option CacheWalk → Option CacheWalk) :
    Option CacheWalk × Bool :=
  let parsed := parse_checkpoint checkpoint
  match resolve_local_gguf_model cache parsed.2 mmproj with
  | some _ => (cache, false)
  | none => (download cache, true)

/-! ## Default llama.cpp backend: `_get_default_llamacpp_backend` in
`src/lemonade_server/pydantic_models.py`. The environment variable and the
`platform.system()` / `platform.machine()` probes are passed as arguments;
`os.getenv` yields `none` when the variable is unset. -/

def getDefaultLlamacppBackend (envBackend : Option String)
    (system machine : String) : String :=
  let platformDefault :=
    if system = "Darwin" ∧ (lowerS machine = "arm64" ∨ lowerS machine = "aarch64")
    then "metal"
    else "vulkan"
  match envBackend with
  | some v => if v ≠ "" then v else platformDefault
  | none => platformDefault

/-! ## FLM wrapped server: `FlmServer` in `src/lemonade/tools/server/flm.py`.
Only the state the claims touch is modelled: the engine-recognized model name
recorded at launch, and the request rewrite in `chat_completion`. -/

/-- A chat-completion request as forwarded by the wrapped server; fields other
than `model` are opaque payload. -/
structure ChatCompletionRequest where
  model : Option String
  messages : List String
  stream : Bool
deriving DecidableEq, Repr

/-- The `FlmServer` fields the claims touch: `flm_model_name` starts as `None`
in `__init__` and is set by `_launch_server_subprocess`. -/
structure FlmServerState where
  flmModelName : Option String
  port : Nat
deriving DecidableEq, Repr

/-- `FlmServer.__init__`: `flm_model_name = None`. -/
def FlmServer.init (port : Nat) : FlmServerState := ⟨none, port⟩

/-- `FlmServer._launch_server_subprocess`: records the checkpoint as the
FLM model name and builds the `flm serve` command line. -/
def FlmServer.launchServerSubprocess (s : FlmServerState) (checkpoint : String)
    (ctxSize : Nat) : FlmServerState × List String :=
  let s2 : FlmServerState := { s with flmModelName := some checkpoint }
  (s2, ["flm", "serve", checkpoint, "--ctx-len", toString ctxSize,
        "--port", toString s2.port])

/-- `FlmServer.chat_completion`: overwrite the request's `model` field with the
recorded FLM model name before forwarding; the forwarded request is returned. -/
def FlmServer.chatCompletion (s : FlmServerState)
    (req : ChatCompletionRequest) : ChatCompletionRequest :=
  { req with model := s.flmModelName }

/-! ## Registration conflict check of `ModelManager.download_models` in
`src/lemonade_server/model_manager.py` (the already-registered branch). -/

/-- Python truthiness of an optional string (`None` and `""` are falsy). -/
def pyTruthy (o : Option String) : Bool :=
  match o with
  | some s => s ≠ ""
  | none => false

/-- The fields of an already-registered descriptor consulted by the conflict
check: `checkpoint`, `recipe`, the labels list, and `get("mmproj", "")`. -/
structure ExistingModel where
  checkpoint : Option String
  recipe : Option String
  labels : List String
  mmproj : String
deriving DecidableEq, Repr

/-- The caller-supplied pull parameters of `download_models`. -/
structure PullArgs where
  checkpoint : Option String
  recipe : Option String
  reasoning : Bool
  vision : Bool
  mmproj : String
deriving DecidableEq, Repr

/-- `existing_reasoning = "reasoning" in existing_model.get("labels", [])`. -/
def existingReasoning (e : ExistingModel) : Bool := "reasoning" ∈ e.labels

/-- `existing_vision = "vision" in existing_model.get("labels", [])`. -/
def existingVision (e : ExistingModel) : Bool := "vision" ∈ e.labels

/-- `checkpoint_differs = checkpoint and checkpoint != existing_checkpoint`. -/
def checkpointDiffers (e : ExistingModel) (a : PullArgs) : Bool :=
  pyTruthy a.checkpoint && (a.checkpoint ≠ e.checkpoint)

/-- `recipe_differs = recipe and recipe != existing_recipe`. -/
def recipeDiffers (e : ExistingModel) (a : PullArgs) : Bool :=
  pyTruthy a.recipe && (a.recipe ≠ e.recipe)

/-- `reasoning_differs = reasoning and reasoning != existing_reasoning`. -/
def reasoningDiffers (e : ExistingModel) (a : PullArgs) : Bool :=
  a.reasoning && (a.reasoning ≠ existingReasoning e)

/-- `mmproj_differs = mmproj and mmproj != existing_mmproj`. -/
def mmprojDiffers (e : ExistingModel) (a : PullArgs) : Bool :=
  (a.mmproj ≠ "") && (a.mmproj ≠ e.mmproj)

/-- `vision_differs = vision and vision != existing_vision`. -/
def visionDiffers (e : ExistingModel) (a : PullArgs) : Bool :=
  a.vision && (a.vision ≠ existingVision e)

/-- The `conflicts` list built before raising, in source order; each entry is
the field name the raised message reports. -/
def registrationConflicts (e : ExistingModel) (a : PullArgs) : List String :=
  (if checkpointDiffers e a then ["checkpoint"] else []) ++
  (if recipeDiffers e a then ["recipe"] else []) ++
  (if reasoningDiffers e a then ["reasoning"] else []) ++
  (if mmprojDiffers e a then ["mmproj"] else []) ++
  (if visionDiffers e a then ["vision"] else [])

/-- The conflict check on the already-registered branch of `download_models`:
raise (with the conflict list) when any supplied field differs, else proceed. -/
def checkExistingRegistration (e : ExistingModel) (a : PullArgs) :
    Except (List String) Unit :=
  if checkpointDiffers e a || recipeDiffers e a || reasoningDiffers e a ||
      mmprojDiffers e a || visionDiffers e a then
    .error (registrationConflicts e a)
  else .ok ()

/-! ## Pull of a previously unknown user model: the not-yet-registered branch
of `ModelManager.download_models`. The `user_models.json` content is modelled
as an association list (`none` when the file does not exist); the download
step's outcome (any of the engine-specific download calls raising or not) is a
boolean parameter, since those calls never touch `user_models.json`. -/

/-- A record written to `user_models.json` for a newly registered model. -/
structure UserModelRecord where
  checkpoint : String
  recipe : String
  suggested : Bool
  labels : List String
  mmproj : Option String
deriving DecidableEq, Repr

/-- The persisted registry: `none` models a missing `user_models.json`. -/
structure RegistryState where
  userModels : Option (List (String × UserModelRecord))
deriving DecidableEq, Repr

/-- The errors the not-yet-registered branch can raise before registering. -/
inductive PullError where
  | badNamespace
  | missingArgs
  | ggufVariantMissing
  | downloadFailed
deriving DecidableEq, Repr

/-- `labels = ["custom"]` plus `reasoning` / `vision` when requested. -/
def buildUserModelLabels (reasoning vision : Bool) : List String :=
  "custom" :: ((if reasoning then ["reasoning"] else []) ++
    (if vision then ["vision"] else []))

/-- Python dict assignment `user_models[name] = record` on an ordered map. -/
def upsert (k : String) (v : UserModelRecord) :
    List (String × UserModelRecord) → List (String × UserModelRecord)
  | [] => [(k, v)]
  | (k2, v2) :: t => if k2 = k then (k, v) :: t else (k2, v2) :: upsert k v t

/-- The unknown-model branch of `download_models` for one model name: validate
the `user.` namespace, the required arguments and the GGUF variant requirement,
run the download, and only then write the new record into `user_models.json`.
Returns the resulting registry plus the raised error, if any. -/
def pullUnknownModel (st : RegistryState) (model : String)
    (checkpoint recipe : Option String) (reasoning vision : Bool)
    (mmproj : String) (downloadOk : Bool) : RegistryState × Option PullError :=
  match splitFirst '.' model with
  | (_, none) => (st, some .badNamespace)
  | (ns, some modelName) =>
    if ns ≠ "user" then (st, some .badNamespace)
    else if !pyTruthy recipe || !pyTruthy checkpoint then (st, some .missingArgs)
    else
      match checkpoint, recipe with
      | some c, some r =>
        if containsSub "gguf" (lowerS c) && !containsSub ":" (lowerS c) then
          (st, some .ggufVariantMissing)
        else if downloadOk then
          let record : UserModelRecord :=
            { checkpoint := c, recipe := r, suggested := true,
              labels := buildUserModelLabels reasoning vision,
              mmproj := if mmproj ≠ "" then some mmproj else none }
          (⟨some (upsert modelName record (st.userModels.getD []))⟩, none)
        else (st, some .downloadFailed)
      | _, _ => (st, some .missingArgs)

/-! ## `ModelManager.delete_model` for Hugging Face checkpoints: the snapshot
directory is modelled as a list of entries (`os.listdir` order), each a file or
a directory with its contained file names; variant files identified by
`identify_gguf_models` are removed, and the whole repository directory is
removed when `remaining_files` is empty. -/

/-- One entry of the snapshot directory. -/
structure SnapEntry where
  name : String
  isDir : Bool
  contents : List String
deriving DecidableEq, Repr

/-- Deletion of one variant file path inside the snapshot
(`os.remove` / `shutil.rmtree` guarded by `os.path.exists`): a plain name
removes the matching top-level entry; a `folder/file` path removes the
contained file from the matching directory entry. -/
def removeVariantPath (snap : List SnapEntry) (p : String) : List SnapEntry :=
  match splitFirst '/' p with
  | (f, none) => snap.filter (fun e => e.name ≠ f)
  | (d, some rest) =>
    snap.map (fun e =>
      if e.name = d && e.isDir then
        { e with contents := e.contents.filter (fun f => f ≠ rest) }
      else e)

/-- `all_variant_files = list(core_files.values()) + sharded_files`. -/
def allVariantFiles (sel : GgufSelection) : List String :=
  sel.variantName ::
    ((match sel.mmprojFile with
      | some m => [m]
      | none => []) ++ sel.shardedFiles)

/-- `remaining_files`: snapshot entries that end in `.gguf` or are
directories. -/
def remainingFiles (snap : List SnapEntry) : List SnapEntry :=
  snap.filter (fun e => endsWithS e.name ".gguf" || e.isDir)

/-- The selective-deletion block of `delete_model`: identify the variant's
files, delete them from the snapshot, then remove the whole repository
directory (`none`) exactly when no `.gguf` entry and no directory remains.
A failure inside the block (`except Exception`) only logs, deleting nothing. -/
def deleteVariantFiles (repo_files : List String) (variant : String)
    (mmproj : String) (snap : List SnapEntry) : Option (List SnapEntry) :=
  match identify_gguf_models repo_files (some variant) mmproj with
  | .error _ => some snap
  | .ok sel =>
    let snap2 := (allVariantFiles sel).foldl removeVariantPath snap
    if (remainingFiles snap2).isEmpty then none else some snap2

/-- Outcome of `delete_model` on a Hugging Face checkpoint. -/
inductive DeleteOutcome where
  | selective (after : Option (List SnapEntry))
  | removedRepo
  | dirMissing
deriving DecidableEq, Repr

/-- Dispatch of `delete_model` after `parse_checkpoint`: a truthy variant with
an existing snapshot deletes selectively; otherwise the whole repository
directory is removed when it exists. `repo_files` stands for the repository
listing `identify_gguf_models` fetches. -/
def delete_model_hf (variant : Option String)
    (snapshot : Option (List SnapEntry)) (cacheDirExists : Bool)
    (repo_files : List String) (mmproj : String) : DeleteOutcome :=
  match variant, snapshot with
  | some v, some snap =>
    if v ≠ "" then .selective (deleteVariantFiles repo_files v mmproj snap)
    else if cacheDirExists then .removedRepo
    else .dirMissing
  | _, _ => if cacheDirExists then .removedRepo else .dirMissing

/-! ## `ModelManager.filter_models_by_backend`: platform inputs
(`platform.system()`, `platform.machine()`, `platform.mac_ver()[0]`) and the
two environment probes are passed as arguments; models are `(name, recipe)`
pairs with `recipe = value.get("recipe")`. -/

/-- Result of `filter_models_by_backend`: the structured
`_unsupported_platform_error` maps (keeping the detail fields the claims
mention), the `int(...)` parse failure, or the filtered model list. -/
inductive FilterResult where
  | unsupportedIntelMac (machine : String)
  | unsupportedMacVersion (version machine : String)
  | versionParseFailure
  | filtered (models : List (String × Option String))
deriving DecidableEq, Repr

/-- Decimal digit parser backing `parseMajor` (Python `int` on a digit
string). -/
def digitsToNatL (l : List Char) : Option Nat :=
  if l.isEmpty then none
  else
    l.foldl
      (fun acc c =>
        match acc with
        | none => none
        | some n => if c.isDigit then some (n * 10 + (c.toNat - 48)) else none)
      (some 0)

/-- `int(mac_version.split(".")[0])`, as far as it succeeds. -/
def parseMajor (ver : String) : Option Nat :=
  digitsToNatL ((splitFirst '.' ver).1).data

/-- The per-model filter loop: drop `oga-hybrid`/`oga-npu` without the RyzenAI
packages, drop `flm` without a RyzenAI NPU, and on macOS keep only
`llamacpp`. -/
def filterLoop (isMacos ryzenaiInstalled npuAvailable : Bool)
    (models : List (String × Option String)) : List (String × Option String) :=
  models.filter (fun m =>
    if (m.2 = some "oga-hybrid" ∨ m.2 = some "oga-npu") ∧ ryzenaiInstalled = false
    then false
    else if m.2 = some "flm" ∧ npuAvailable = false then false
    else if isMacos = true ∧ ¬m.2 = some "llamacpp" then false
    else true)

/-- `filter_models_by_backend(models)` with the platform probes explicit. -/
def filter_models_by_backend (system machine macVer : String)
    (ryzenaiInstalled npuAvailable : Bool)
    (models : List (String × Option String)) : FilterResult :=
  if system = "Darwin" then
    let m := lowerS machine
    if m = "x86_64" then .unsupportedIntelMac m
    else if macVer ≠ "" then
      match parseMajor macVer with
      | none => .versionParseFailure
      | some major =>
        if major < 14 then .unsupportedMacVersion macVer m
        else .filtered (filterLoop true ryzenaiInstalled npuAvailable models)
    else .filtered (filterLoop true ryzenaiInstalled npuAvailable models)
  else .filtered (filterLoop false ryzenaiInstalled npuAvailable models)


/-! # Theorems

Helper lemmas about the string order and the embedded operations, the sanity
evaluations, and the claim theorems. -/

theorem strLeL_total (x y : List Char) : strLeL x y = true ∨ strLeL y x = true := by
  induction x generalizing y with
  | nil => left; rfl
  | cons c cs ih =>
    cases y with
    | nil => right; rfl
    | cons d ds =>
      by_cases hcd : c = d
      · subst hcd
        simpa [strLeL] using ih ds
      · have hv : c.toNat ≠ d.toNat := fun h => hcd (Char.ext (UInt32.ext h))
        rcases Nat.lt_or_ge c.toNat d.toNat with h | h
        · left; simp [strLeL, hcd, h]
        · right
          have hdc : d ≠ c := fun h2 => hcd h2.symm
          have hlt : d.toNat < c.toNat := Nat.lt_of_le_of_ne h (fun h2 => hv h2.symm)
          simp [strLeL, hdc, hlt]

theorem strLeL_trans (x y z : List Char) (hxy : strLeL x y = true)
    (hyz : strLeL y z = true) : strLeL x z = true := by
  induction x generalizing y z with
  | nil => rfl
  | cons a as ih =>
    cases y with
    | nil => simp [strLeL] at hxy
    | cons b bs =>
      cases z with
      | nil => simp [strLeL] at hyz
      | cons c cs =>
        by_cases hab : a = b
        · subst hab
          by_cases hbc : a = c
          · subst hbc
            simp only [strLeL, if_pos rfl] at hxy hyz ⊢
            exact ih bs cs hxy hyz
          · simp only [strLeL, if_pos rfl] at hxy
            simp only [strLeL, if_neg hbc] at hyz ⊢
            exact hyz
        · simp only [strLeL, if_neg hab, decide_eq_true_eq] at hxy
          by_cases hbc : b = c
          · subst hbc
            simp only [strLeL, if_neg hab, decide_eq_true_eq]
            exact hxy
          · simp only [strLeL, if_neg hbc, decide_eq_true_eq] at hyz
            have hac : a.toNat < c.toNat := Nat.lt_trans hxy hyz
            have hne : a ≠ c := by
              intro h
              subst h
              exact Nat.lt_irrefl _ hac
            simp only [strLeL, if_neg hne, decide_eq_true_eq]
            exact hac

instance : IsTotal String (fun a b : String => strLe a b = true) :=
  ⟨fun a b => strLeL_total a.data b.data⟩

instance : IsTrans String (fun a b : String => strLe a b = true) :=
  ⟨fun a b c => strLeL_trans a.data b.data c.data⟩

theorem sortStr_perm (l : List String) : List.Perm (sortStr l) l :=
  List.perm_insertionSort _ l

theorem sortStr_sorted (l : List String) :
    List.Sorted (fun a b : String => strLe a b = true) (sortStr l) :=
  List.sorted_insertionSort _ l

theorem sorted_head_min {f : String} {fs : List String}
    (h : List.Sorted (fun a b : String => strLe a b = true) (f :: fs)) :
    ∀ g ∈ f :: fs, strLe f g = true := by
  intro g hg
  rcases List.mem_cons.mp hg with hg | hg
  · subst hg
    have : strLe g g = true ∨ strLe g g = true := strLeL_total g.data g.data
    exact this.elim id id
  · exact List.rel_of_sorted_cons h g hg

example : identify_gguf_models ["a.gguf", "b.gguf"] (some "*") "" =
    .ok ⟨"a.gguf", none, ["a.gguf", "b.gguf"]⟩ := rfl
example : identify_gguf_models ["a.gguf", "b.gguf"] none "" =
    .ok ⟨"a.gguf", none, []⟩ := rfl
example : identify_gguf_models ["a.gguf", "b.gguf"] (some "") "" =
    .error .ambiguousVariant := rfl
example : identify_gguf_models ["m-Q4.gguf", "mmproj-Q4.gguf"] (some "Q4") "" =
    .ok ⟨"m-Q4.gguf", none, []⟩ := rfl
example : identify_gguf_models ["Q4_0/m-00002.gguf", "Q4_0/m-00001.gguf", "x.bin"]
    (some "Q4_0") "" =
    .ok ⟨"Q4_0/m-00001.gguf", none, ["Q4_0/m-00001.gguf", "Q4_0/m-00002.gguf"]⟩ := rfl
example : parse_checkpoint "unsloth/Qwen3-8B-GGUF:Q4_1" =
    ("unsloth/Qwen3-8B-GGUF", some "Q4_1") := rfl
example : parse_checkpoint "org/Repo-GGUF:" = ("org/Repo-GGUF", some "") := rfl
example : parse_checkpoint "amd/model" = ("amd/model", none) := rfl
example : resolve_local_gguf_model
    (some [("snap", ["mmproj-f16.gguf", "m-Q4_0.gguf", "readme.md"])])
    (some "Q8_0") none =
    some ⟨("snap", "m-Q4_0.gguf"), none⟩ := rfl
example : resolve_local_gguf_model (some [("snap", ["Q4_0.gguf", "a.gguf"])])
    (some "Q4_0") none =
    some ⟨("snap", "Q4_0.gguf"), none⟩ := rfl
example : resolve_local_gguf_model none (some "Q4_0") none = none := rfl
example : getDefaultLlamacppBackend none "Darwin" "arm64" = "metal" := rfl
example : getDefaultLlamacppBackend none "Darwin" "x86_64" = "vulkan" := rfl
example : getDefaultLlamacppBackend none "Windows" "AMD64" = "vulkan" := rfl
example : getDefaultLlamacppBackend (some "rocm") "Darwin" "arm64" = "rocm" := rfl
example : getDefaultLlamacppBackend (some "") "Linux" "x86_64" = "vulkan" := rfl
example : filter_models_by_backend "Darwin" "x86_64" "15.1" true true
    [("a", some "llamacpp")] = .unsupportedIntelMac "x86_64" := rfl
example : filter_models_by_backend "Darwin" "arm64" "13.2" true true
    [("a", some "llamacpp")] = .unsupportedMacVersion "13.2" "arm64" := by decide
example : filter_models_by_backend "Darwin" "arm64" "14.0" false false
    [("a", some "llamacpp"), ("b", some "flm"), ("c", some "oga-hybrid"),
     ("d", some "whispercpp")] = .filtered [("a", some "llamacpp")] := by decide
example : filter_models_by_backend "Windows" "AMD64" "" false true
    [("a", some "llamacpp"), ("b", some "flm"), ("c", some "oga-hybrid")] =
    .filtered [("a", some "llamacpp"), ("b", some "flm")] := rfl

/-! ## Candidate-set lemmas shared by the variant-resolution claims -/

theorem mem_noneCandidates {repo_files : List String} {f : String}
    (h : f ∈ noneCandidates repo_files) :
    endsWithS f ".gguf" = true ∧ containsSub "mmproj" f = false := by
  have h2 := (List.mem_filter.mp h).2
  simpa [Bool.and_eq_true, Bool.not_eq_true'] using h2

theorem mem_suffixMatches {repo_files : List String} {v f : String}
    (h : f ∈ suffixMatches repo_files v) :
    endsWithS (lowerS f) (lowerS (v ++ ".gguf")) = true ∧
      containsSub "mmproj" (lowerS f) = false := by
  have h2 := (List.mem_filter.mp h).2
  simpa [Bool.and_eq_true, Bool.not_eq_true'] using h2

theorem mem_fallbackCandidates {files : List String} {f : String}
    (h : f ∈ fallbackCandidates files) :
    endsWithS f ".gguf" = true ∧ containsSub "mmproj" (lowerS f) = false := by
  have h2 := (List.mem_filter.mp h).2
  simpa [Bool.and_eq_true, Bool.not_eq_true'] using h2

theorem findFallback_spec {walk : CacheWalk} {root f : String}
    (h : findFallback walk = some (root, f)) :
    ∃ files, (root, files) ∈ walk ∧ f ∈ fallbackCandidates files := by
  induction walk with
  | nil => simp [findFallback] at h
  | cons e rest ih =>
    rcases e with ⟨r0, fs0⟩
    rcases hc : fallbackCandidates fs0 with _ | ⟨g, t⟩
    · simp only [findFallback, hc] at h
      rcases ih h with ⟨files, hm, hf⟩
      exact ⟨files, List.mem_cons_of_mem _ hm, hf⟩
    · simp only [findFallback, hc, Option.some.injEq, Prod.mk.injEq] at h
      refine ⟨fs0, ?_, ?_⟩
      · rw [h.1]
        exact List.mem_cons_self _ _
      · rw [← h.2, hc]
        exact List.mem_cons_self _ _

/-! ## C10: mmproj files are never selected as primary -/

/-- C10: files containing `mmproj` are excluded from the missing-variant
candidate set (case-sensitively), from the quantization-suffix candidate set
(case-insensitively) and from the local-cache fallback candidates
(case-insensitively); consequently the file the missing-variant rule or the
suffix rule selects as primary, and the file the local fallback search
resolves, never contain `mmproj` under the respective case convention. -/
theorem mmproj_never_primary :
    (∀ repo_files f, f ∈ noneCandidates repo_files →
      containsSub "mmproj" f = false) ∧
    (∀ repo_files v f, f ∈ suffixMatches repo_files v →
      containsSub "mmproj" (lowerS f) = false) ∧
    (∀ files f, f ∈ fallbackCandidates files →
      containsSub "mmproj" (lowerS f) = false) ∧
    (∀ repo_files r, identify_gguf_models repo_files none "" = .ok r →
      containsSub "mmproj" r.variantName = false) ∧
    (∀ repo_files v mmproj r, v ≠ "*" → endsWithS v ".gguf" = false →
      identify_gguf_models repo_files (some v) mmproj = .ok r →
      suffixMatches repo_files v ≠ [] →
      containsSub "mmproj" (lowerS r.variantName) = false) ∧
    (∀ walk variant config_mmproj r, specificSearch walk variant = none →
      resolve_local_gguf_model (some walk) variant config_mmproj = some r →
      containsSub "mmproj" (lowerS r.variantPath.2) = false) := by
  refine ⟨?_, ?_, ?_, ?_, ?_, ?_⟩
  · intro repo_files f h
    exact (mem_noneCandidates h).2
  · intro repo_files v f h
    exact (mem_suffixMatches h).2
  · intro files f h
    exact (mem_fallbackCandidates h).2
  · intro repo_files r h
    rcases hc : noneCandidates repo_files with _ | ⟨f, t⟩
    · simp [identify_gguf_models, hc] at h
    · simp only [identify_gguf_models, hc] at h
      have hr : GgufSelection.mk f none [] = r := by
        simpa using h
      rw [← hr]
      have hf : f ∈ noneCandidates repo_files := by
        rw [hc]
        exact List.mem_cons_self _ _
      exact (mem_noneCandidates hf).2
  · intro repo_files v mmproj r hstar hgguf h hne
    rcases hs : suffixMatches repo_files v with _ | ⟨u, _ | ⟨b, t⟩⟩
    · exact absurd hs hne
    · simp only [identify_gguf_models, hs, hstar, hgguf] at h
      have hu : u ∈ suffixMatches repo_files v := by
        rw [hs]
        exact List.mem_cons_self _ _
      have humm := (mem_suffixMatches hu).2
      have h2 : (if mmproj ≠ "" then
          (if mmproj ∈ repo_files then
            Except.ok (GgufSelection.mk u (some mmproj) [])
          else Except.error GgufError.mmprojNotFound)
          else Except.ok (GgufSelection.mk u none [])) = Except.ok r := h
      split at h2
      · split at h2
        · injection h2 with h3
          rw [← h3]
          exact humm
        · exact absurd h2 (by simp)
      · injection h2 with h3
        rw [← h3]
        exact humm
    · simp [identify_gguf_models, hs, hstar, hgguf] at h
  · intro walk variant config_mmproj r hspec h
    simp only [resolve_local_gguf_model, hspec] at h
    rcases hf : findFallback walk with _ | ⟨root, f⟩
    · simp [hf] at h
    · simp only [hf, Option.some.injEq] at h
      rcases findFallback_spec hf with ⟨files, _, hmem⟩
      rw [← h]
      exact (mem_fallbackCandidates hmem).2

/-- C10 witness: the exclusions evaluated on concrete listings and a concrete
cache walk. -/
theorem mmproj_never_primary_witness :
    containsSub "mmproj" "b.gguf" = false ∧
    containsSub "mmproj" (lowerS "x-q4_0.gguf") = false ∧
    containsSub "mmproj" (lowerS "m.gguf") = false :=
  ⟨mmproj_never_primary.2.2.2.1 ["mmproj-a.gguf", "b.gguf"] ⟨"b.gguf", none, []⟩
      rfl,
    mmproj_never_primary.2.2.2.2.1 ["x-q4_0.gguf"] "Q4_0" "" ⟨"x-q4_0.gguf", none, []⟩
      (by decide) rfl rfl (by decide),
    mmproj_never_primary.2.2.2.2.2 [("snap", ["mmproj.gguf", "m.gguf"])] none none
      ⟨("snap", "m.gguf"), none⟩ rfl rfl⟩

/-! ## C6: deleting a GGUF variant -/

theorem removeVariantPath_preserves {snap : List SnapEntry} {p : String}
    {e : SnapEntry} (he : e ∈ snap) (hne : e.name ≠ (splitFirst '/' p).1) :
    e ∈ removeVariantPath snap p := by
  rcases hsp : splitFirst '/' p with ⟨d, rest⟩
  rw [hsp] at hne
  simp only at hne
  unfold removeVariantPath
  rw [hsp]
  cases rest with
  | none =>
    apply List.mem_filter.mpr
    exact ⟨he, by simp [hne]⟩
  | some rest =>
    refine List.mem_map.mpr ⟨e, he, ?_⟩
    simp [hne]

theorem foldl_remove_preserves {targets : List String} {snap : List SnapEntry}
    {e : SnapEntry} (he : e ∈ snap)
    (hne : ∀ p ∈ targets, e.name ≠ (splitFirst '/' p).1) :
    e ∈ targets.foldl removeVariantPath snap := by
  induction targets generalizing snap with
  | nil => exact he
  | cons p ps ih =>
    simp only [List.foldl_cons]
    exact ih (removeVariantPath_preserves he (hne p (List.mem_cons_self _ _)))
      (fun q hq => hne q (List.mem_cons_of_mem _ hq))

/-- C6 counterexample: deleting the only variant of a snapshot that also holds
a (gguf-free) subdirectory keeps the repository directory, although no `.gguf`
file remains anywhere in the snapshot — the `remaining_files` check also counts
directories. -/
theorem delete_keeps_repo_counterexample :
    delete_model_hf (some "Q4_0")
        (some [⟨"m-Q4_0.gguf", false, []⟩, ⟨"docs", true, ["a.txt"]⟩]) true
        ["m-Q4_0.gguf"] "" =
      .selective (some [⟨"docs", true, ["a.txt"]⟩]) ∧
    endsWithS "docs" ".gguf" = false ∧
    endsWithS "a.txt" ".gguf" = false := ⟨rfl, rfl, rfl⟩

/-- C6 (amended): for a registered GGUF model with a truthy variant and an
existing snapshot, `delete_model` deletes only the identified variant files —
every snapshot entry whose name is not the top-level component of a variant
file survives; the repository directory is removed exactly when afterwards no
entry ends in `.gguf` and no subdirectory remains; for a model without a
variant (or with an empty one) the whole repository directory is removed. -/
theorem delete_model_gguf_rules :
    (∀ repo_files v mm snap sel e snap2,
      identify_gguf_models repo_files (some v) mm = .ok sel →
      e ∈ snap →
      (∀ p ∈ allVariantFiles sel, e.name ≠ (splitFirst '/' p).1) →
      deleteVariantFiles repo_files v mm snap = some snap2 →
      e ∈ snap2) ∧
    (∀ repo_files v mm snap sel,
      identify_gguf_models repo_files (some v) mm = .ok sel →
      (deleteVariantFiles repo_files v mm snap = none ↔
        ∀ e ∈ (allVariantFiles sel).foldl removeVariantPath snap,
          endsWithS e.name ".gguf" = false ∧ e.isDir = false)) ∧
    (∀ snapshot repo_files mm,
      delete_model_hf none snapshot true repo_files mm = .removedRepo) ∧
    (∀ snapshot repo_files mm,
      delete_model_hf (some "") snapshot true repo_files mm = .removedRepo) ∧
    (∀ v snap repo_files mm, v ≠ "" →
      delete_model_hf (some v) (some snap) true repo_files mm =
        .selective (deleteVariantFiles repo_files v mm snap)) := by
  refine ⟨?_, ?_, ?_, ?_, ?_⟩
  · intro repo_files v mm snap sel e snap2 hsel he hne hdel
    have hred : deleteVariantFiles repo_files v mm snap =
        (if (remainingFiles ((allVariantFiles sel).foldl removeVariantPath
            snap)).isEmpty = true then none
        else some ((allVariantFiles sel).foldl removeVariantPath snap)) := by
      unfold deleteVariantFiles
      rw [hsel]
    rw [hred] at hdel
    split at hdel
    · exact absurd hdel (by simp)
    · rw [Option.some.injEq] at hdel
      rw [← hdel]
      exact foldl_remove_preserves he hne
  · intro repo_files v mm snap sel hsel
    have hred : deleteVariantFiles repo_files v mm snap =
        (if (remainingFiles ((allVariantFiles sel).foldl removeVariantPath
            snap)).isEmpty = true then none
        else some ((allVariantFiles sel).foldl removeVariantPath snap)) := by
      unfold deleteVariantFiles
      rw [hsel]
    rw [hred]
    constructor
    · intro hnone
      by_cases hemp : (remainingFiles ((allVariantFiles sel).foldl
          removeVariantPath snap)).isEmpty = true
      · intro e he
        have hnil := List.isEmpty_iff.mp hemp
        have hnp := List.filter_eq_nil_iff.mp hnil e he
        simp only [Bool.or_eq_true, not_or, Bool.not_eq_true] at hnp
        exact ⟨hnp.1, hnp.2⟩
      · rw [if_neg hemp] at hnone
        exact absurd hnone (by simp)
    · intro hall
      have hnil : remainingFiles ((allVariantFiles sel).foldl removeVariantPath
          snap) = [] := by
        apply List.filter_eq_nil_iff.mpr
        intro e he
        have hp := hall e he
        simp [hp.1, hp.2]
      rw [if_pos (List.isEmpty_iff.mpr hnil)]
  · intro snapshot repo_files mm
    cases snapshot <;> rfl
  · intro snapshot repo_files mm
    cases snapshot <;> rfl
  · intro v snap repo_files mm hv
    simp [delete_model_hf, hv]

/-- C6 witness: deleting variant `q4_0` from a two-variant snapshot keeps the
other variant's file, and the dispatch rule evaluated concretely. -/
theorem delete_model_gguf_rules_witness :
    (⟨"m-q5_k.gguf", false, []⟩ : SnapEntry) ∈
      [(⟨"m-q5_k.gguf", false, []⟩ : SnapEntry)] ∧
    delete_model_hf (some "q4_0") (some [⟨"m-q4_0.gguf", false, []⟩]) true
        ["m-q4_0.gguf"] "" =
      .selective (deleteVariantFiles ["m-q4_0.gguf"] "q4_0" ""
        [⟨"m-q4_0.gguf", false, []⟩]) :=
  ⟨delete_model_gguf_rules.1 ["m-q4_0.gguf", "m-q5_k.gguf"] "q4_0" ""
      [⟨"m-q4_0.gguf", false, []⟩, ⟨"m-q5_k.gguf", false, []⟩]
      ⟨"m-q4_0.gguf", none, []⟩ ⟨"m-q5_k.gguf", false, []⟩
      [⟨"m-q5_k.gguf", false, []⟩] rfl (by decide) (by decide) rfl,
    delete_model_gguf_rules.2.2.2.2 "q4_0" [⟨"m-q4_0.gguf", false, []⟩]
      ["m-q4_0.gguf"] "" (by decide)⟩

/-! ## C7: macOS platform filtering -/

theorem filterLoop_macos (ryz npu : Bool)
    (models : List (String × Option String)) :
    filterLoop true ryz npu models =
      models.filter (fun m => decide (m.2 = some "llamacpp")) := by
  apply List.filter_congr
  intro m _
  by_cases hm : m.2 = some "llamacpp"
  · simp [hm]
  · simp [hm]

/-- C7 counterexample: a macOS machine string that is neither arm64 nor
aarch64 (and not x86_64 either) does not produce the unsupported-platform
error — the filtered model list is returned. -/
theorem filter_nonarm_mac_counterexample :
    filter_models_by_backend "Darwin" "powerpc" "15.0" true true
        [("m", some "llamacpp")] =
      .filtered [("m", some "llamacpp")] ∧
    lowerS "powerpc" ≠ "arm64" ∧ lowerS "powerpc" ≠ "aarch64" ∧
    lowerS "powerpc" ≠ "x86_64" := ⟨by decide, by decide, by decide, by decide⟩

/-- C7 (amended): on macOS, `filter_models_by_backend` returns the structured
unsupported-platform error exactly for the lowercased machine string `x86_64`
(Intel Mac) or for a parsed macOS major version below 14; otherwise exactly the
models whose recipe is `llamacpp` survive the filter. -/
theorem filter_models_macos_rules (machine macVer : String) (ryz npu : Bool)
    (models : List (String × Option String)) :
    (lowerS machine = "x86_64" →
      filter_models_by_backend "Darwin" machine macVer ryz npu models =
        .unsupportedIntelMac (lowerS machine)) ∧
    (lowerS machine ≠ "x86_64" → ∀ major, parseMajor macVer = some major →
      macVer ≠ "" → major < 14 →
      filter_models_by_backend "Darwin" machine macVer ryz npu models =
        .unsupportedMacVersion macVer (lowerS machine)) ∧
    (lowerS machine ≠ "x86_64" → ∀ major, parseMajor macVer = some major →
      macVer ≠ "" → ¬major < 14 →
      filter_models_by_backend "Darwin" machine macVer ryz npu models =
        .filtered (models.filter (fun m => decide (m.2 = some "llamacpp")))) ∧
    (lowerS machine ≠ "x86_64" → macVer = "" →
      filter_models_by_backend "Darwin" machine macVer ryz npu models =
        .filtered (models.filter (fun m => decide (m.2 = some "llamacpp")))) := by
  refine ⟨?_, ?_, ?_, ?_⟩
  · intro h
    simp [filter_models_by_backend, h]
  · intro h major hp hne hlt
    simp [filter_models_by_backend, h, hne, hp, hlt]
  · intro h major hp hne hlt
    simp [filter_models_by_backend, h, hne, hp, hlt, filterLoop_macos]
  · intro h hne
    subst hne
    simp [filter_models_by_backend, h, filterLoop_macos]

/-- C7 witness: the three macOS outcomes evaluated concretely. -/
theorem filter_models_macos_rules_witness :
    filter_models_by_backend "Darwin" "x86_64" "15.0" true true
        [("a", some "llamacpp")] = .unsupportedIntelMac (lowerS "x86_64") ∧
    filter_models_by_backend "Darwin" "arm64" "13.2" true true
        [("a", some "llamacpp")] =
      .unsupportedMacVersion "13.2" (lowerS "arm64") ∧
    filter_models_by_backend "Darwin" "arm64" "14.0" false false
        [("a", some "llamacpp"), ("b", some "flm")] =
      .filtered ([("a", some "llamacpp"), ("b", some "flm")].filter
        (fun m => decide (m.2 = some "llamacpp"))) :=
  ⟨(filter_models_macos_rules "x86_64" "15.0" true true _).1 rfl,
    (filter_models_macos_rules "arm64" "13.2" true true _).2.1 (by decide) 13
      rfl (by decide) (by decide),
    (filter_models_macos_rules "arm64" "14.0" false false _).2.2.1 (by decide)
      14 rfl (by decide) (by decide)⟩

/-! ## C3: conflicting re-registration -/

/-- C3: re-registering an existing model name raises exactly when one of the
supplied fields (in the Python-truthiness sense: a non-empty checkpoint,
recipe or mmproj, or a `true` reasoning/vision flag) differs from the existing
descriptor; the raised error lists precisely the differing fields, and a pull
whose supplied fields all match the existing descriptor does not raise. -/
theorem registration_conflict_check (e : ExistingModel) (a : PullArgs) :
    (checkExistingRegistration e a = .ok () ↔ registrationConflicts e a = []) ∧
    ("checkpoint" ∈ registrationConflicts e a ↔ checkpointDiffers e a = true) ∧
    ("recipe" ∈ registrationConflicts e a ↔ recipeDiffers e a = true) ∧
    ("reasoning" ∈ registrationConflicts e a ↔ reasoningDiffers e a = true) ∧
    ("mmproj" ∈ registrationConflicts e a ↔ mmprojDiffers e a = true) ∧
    ("vision" ∈ registrationConflicts e a ↔ visionDiffers e a = true) ∧
    (registrationConflicts e a ≠ [] →
      checkExistingRegistration e a = .error (registrationConflicts e a)) := by
  cases hcp : checkpointDiffers e a <;> cases hrc : recipeDiffers e a <;>
    cases hre : reasoningDiffers e a <;> cases hmp : mmprojDiffers e a <;>
    cases hvi : visionDiffers e a <;>
    simp [checkExistingRegistration, registrationConflicts, hcp, hrc, hre, hmp,
      hvi]

/-- C3 witness: a pull supplying a differing checkpoint and vision flag fails
with exactly those two fields reported. -/
theorem registration_conflict_check_witness :
    checkExistingRegistration ⟨some "c1", some "llamacpp", ["reasoning"], ""⟩
        ⟨some "c2", none, false, true, ""⟩ =
      .error (registrationConflicts
        ⟨some "c1", some "llamacpp", ["reasoning"], ""⟩
        ⟨some "c2", none, false, true, ""⟩) :=
  (registration_conflict_check _ _).2.2.2.2.2.2 (by decide)

/-! ## C4: local-first resolution -/

theorem findFallback_isSome_of_mem {walk : CacheWalk} {root : String}
    {files : List String} {f : String} (hmem : (root, files) ∈ walk)
    (hf : f ∈ fallbackCandidates files) : (findFallback walk).isSome = true := by
  induction walk with
  | nil => simp at hmem
  | cons e rest ih =>
    rcases e with ⟨r0, fs0⟩
    rcases hc : fallbackCandidates fs0 with _ | ⟨g, t⟩
    · simp only [findFallback, hc]
      rcases List.mem_cons.mp hmem with he | he
      · rw [Prod.mk.injEq] at he
        rw [he.2] at hf
        rw [hc] at hf
        simp at hf
      · exact ih he
    · simp [findFallback, hc]

/-- C4: the `download_models` GGUF step is local-first — the network download
pathway runs exactly when `resolve_local_gguf_model` returns nothing; when the
local cache already resolves (in particular whenever the cached walk holds any
non-mmproj `.gguf` file for the checkpoint, as after a first successful pull),
the step performs no download and leaves the cache unchanged. -/
theorem local_first_pull (cache : Option CacheWalk) (checkpoint : String)
    (mmproj : Option String) (download : Option CacheWalk → Option CacheWalk) :
    ((downloadGgufStep cache checkpoint mmproj download).2 = true ↔
      resolve_local_gguf_model cache (parse_checkpoint checkpoint).2 mmproj =
        none) ∧
    (∀ r, resolve_local_gguf_model cache (parse_checkpoint checkpoint).2 mmproj =
        some r →
      downloadGgufStep cache checkpoint mmproj download = (cache, false)) ∧
    (∀ walk root files f, cache = some walk → (root, files) ∈ walk →
      f ∈ files → endsWithS f ".gguf" = true →
      containsSub "mmproj" (lowerS f) = false →
      downloadGgufStep cache checkpoint mmproj download = (cache, false)) := by
  refine ⟨?_, ?_, ?_⟩
  · rcases hres : resolve_local_gguf_model cache (parse_checkpoint checkpoint).2
        mmproj with _ | r <;>
      simp [downloadGgufStep, hres]
  · intro r hres
    simp [downloadGgufStep, hres]
  · intro walk root files f hc hmem hf hgg hmm
    subst hc
    have hfc : f ∈ fallbackCandidates files := by
      apply List.mem_filter.mpr
      refine ⟨hf, ?_⟩
      rw [hgg, hmm]
      rfl
    have hsome := findFallback_isSome_of_mem hmem hfc
    rcases hsp : specificSearch walk (parse_checkpoint checkpoint).2
        with _ | p
    · rcases hfb : findFallback walk with _ | q
      · rw [hfb] at hsome
        simp at hsome
      · simp [downloadGgufStep, resolve_local_gguf_model, hsp, hfb]
    · simp [downloadGgufStep, resolve_local_gguf_model, hsp]

/-- C4 witness: a second pull of a checkpoint whose variant file is already in
the cache walk downloads nothing and leaves the cache unchanged. -/
theorem local_first_pull_witness :
    downloadGgufStep (some [("snap", ["m-Q4_0.gguf"])]) "org/Repo-GGUF:Q4_0"
        none id =
      (some [("snap", ["m-Q4_0.gguf"])], false) :=
  (local_first_pull _ _ _ _).2.2 [("snap", ["m-Q4_0.gguf"])] "snap"
    ["m-Q4_0.gguf"] "m-Q4_0.gguf" rfl (by decide) (by decide) rfl rfl

/-! ## C5: registration only after a successful download -/

/-- C5: pulling a previously unknown user model registers the new descriptor
in `user_models.json` only after the download step succeeds: when the download
fails the registry is returned unchanged together with an error, and any run
that ends without an error had a successful download and wrote exactly the new
record (keyed by the name after the `user.` prefix) into the registry. -/
theorem pull_unknown_registers_after_download (st : RegistryState)
    (model : String) (checkpoint recipe : Option String)
    (reasoning vision : Bool) (mmproj : String) :
    ((pullUnknownModel st model checkpoint recipe reasoning vision mmproj
        false).1 = st) ∧
    ((pullUnknownModel st model checkpoint recipe reasoning vision mmproj
        false).2.isSome = true) ∧
    (∀ downloadOk st2,
      pullUnknownModel st model checkpoint recipe reasoning vision mmproj
          downloadOk = (st2, none) →
      downloadOk = true ∧
      st2 = ⟨some (upsert ((splitFirst '.' model).2.getD "")
        ⟨checkpoint.getD "", recipe.getD "", true,
          buildUserModelLabels reasoning vision,
          if mmproj ≠ "" then some mmproj else none⟩
        (st.userModels.getD []))⟩) := by
  rcases hsp : splitFirst '.' model with ⟨ns, nsrest⟩
  refine ⟨?_, ?_, ?_⟩
  · cases nsrest <;> cases checkpoint <;> cases recipe <;>
      simp [pullUnknownModel, hsp] <;> split_ifs <;> simp
  · cases nsrest <;> cases checkpoint <;> cases recipe <;>
      simp [pullUnknownModel, hsp] <;> split_ifs <;> simp
  · intro downloadOk st2 h
    cases nsrest with
    | none =>
      simp [pullUnknownModel, hsp] at h
    | some name =>
      cases checkpoint with
      | none =>
        simp only [pullUnknownModel, hsp, pyTruthy] at h
        split at h <;> simp at h
      | some c =>
        cases recipe with
        | none =>
          simp only [pullUnknownModel, hsp, pyTruthy] at h
          split at h <;> simp at h
        | some r =>
          simp only [pullUnknownModel, hsp] at h
          split at h
          · simp at h
          · split at h
            · simp at h
            · split at h
              · simp at h
              · split at h
                · rw [Prod.mk.injEq] at h
                  refine ⟨by assumption, ?_⟩
                  rw [← h.1]
                  simp [hsp]
                · simp at h

/-- C5 witness: a successful pull of `user.Foo` writes exactly the new
record; the same pull with a failing download leaves the registry unchanged
and reports an error. -/
theorem pull_unknown_registers_witness :
    (pullUnknownModel ⟨none⟩ "user.Foo" (some "org/Repo-GGUF:Q4")
        (some "llamacpp") false false "" false).1 = ⟨none⟩ ∧
    (pullUnknownModel ⟨none⟩ "user.Foo" (some "org/Repo-GGUF:Q4")
        (some "llamacpp") false false "" false).2.isSome = true ∧
    (true = true ∧
      (⟨some (upsert ((splitFirst '.' "user.Foo").2.getD "")
          ⟨(some "org/Repo-GGUF:Q4").getD "", (some "llamacpp").getD "", true,
            buildUserModelLabels false false,
            if ("" : String) ≠ "" then some "" else none⟩
          ((⟨none⟩ : RegistryState).userModels.getD []))⟩ : RegistryState) =
        ⟨some (upsert ((splitFirst '.' "user.Foo").2.getD "")
          ⟨(some "org/Repo-GGUF:Q4").getD "", (some "llamacpp").getD "", true,
            buildUserModelLabels false false,
            if ("" : String) ≠ "" then some "" else none⟩
          ((⟨none⟩ : RegistryState).userModels.getD []))⟩) :=
  ⟨(pull_unknown_registers_after_download ⟨none⟩ "user.Foo"
      (some "org/Repo-GGUF:Q4") (some "llamacpp") false false "").1,
    (pull_unknown_registers_after_download ⟨none⟩ "user.Foo"
      (some "org/Repo-GGUF:Q4") (some "llamacpp") false false "").2.1,
    (pull_unknown_registers_after_download ⟨none⟩ "user.Foo"
      (some "org/Repo-GGUF:Q4") (some "llamacpp") false false "").2.2 true _
      rfl⟩

/-! ## C1: the ordered GGUF variant-resolution rules -/

/-- C1 counterexample: with the empty-string variant the resolver does not
select the first non-mmproj `.gguf` file (`"a.gguf"` here, the head of the
missing-variant candidate list): the empty string is not `None`, so it falls
through to the quantization-suffix rule, which here fails as ambiguous. -/
theorem gguf_empty_variant_counterexample :
    identify_gguf_models ["a.gguf", "b.gguf"] (some "") "" =
      .error .ambiguousVariant ∧
    noneCandidates ["a.gguf", "b.gguf"] = ["a.gguf", "b.gguf"] := ⟨rfl, rfl⟩

/-- C1 (amended): the five ordered resolution rules, with the missing-variant
rule applying to `None` only (an empty-string variant instead reaches the
suffix rule), the suffix rule restricted to files not containing `mmproj`
(case-insensitively), and the folder rule matching the folder name
case-insensitively. Primaries of the wildcard and folder rules are the head of
the sorted selection, which the last conjunct shows is a sorted permutation of
the candidates whose head is minimal. -/
theorem identify_gguf_models_rules (repo_files : List String) :
    (wildcardFiles repo_files ≠ [] →
      identify_gguf_models repo_files (some "*") "" =
        .ok ⟨(sortStr (wildcardFiles repo_files)).headD "", none,
          sortStr (wildcardFiles repo_files)⟩) ∧
    (∀ v, endsWithS v ".gguf" = true → v ∈ repo_files →
      identify_gguf_models repo_files (some v) "" = .ok ⟨v, none, []⟩) ∧
    (noneCandidates repo_files ≠ [] →
      identify_gguf_models repo_files none "" =
        .ok ⟨(noneCandidates repo_files).headD "", none, []⟩) ∧
    (∀ v u, v ≠ "*" → endsWithS v ".gguf" = false →
      suffixMatches repo_files v = [u] →
      identify_gguf_models repo_files (some v) "" = .ok ⟨u, none, []⟩) ∧
    (∀ v, v ≠ "*" → endsWithS v ".gguf" = false →
      suffixMatches repo_files v = [] → folderFiles repo_files v ≠ [] →
      identify_gguf_models repo_files (some v) "" =
        .ok ⟨(sortStr (folderFiles repo_files v)).headD "", none,
          sortStr (folderFiles repo_files v)⟩) ∧
    (∀ l : List String, List.Perm (sortStr l) l ∧
      List.Sorted (fun a b => strLe a b = true) (sortStr l) ∧
      ∀ g ∈ sortStr l, strLe ((sortStr l).headD "") g = true) := by
  refine ⟨?_, ?_, ?_, ?_, ?_, ?_⟩
  · intro hne
    rcases hs : sortStr (wildcardFiles repo_files) with _ | ⟨f, t⟩
    · exfalso
      have hp := sortStr_perm (wildcardFiles repo_files)
      rw [hs] at hp
      exact hne (List.Perm.eq_nil hp.symm)
    · simp only [identify_gguf_models, hs]
      rfl
  · intro v hv hmem
    have hstar : v ≠ "*" := by
      intro he
      rw [he] at hv
      exact absurd hv (by decide)
    simp only [identify_gguf_models, hstar, hv, hmem]
    rfl
  · intro hne
    rcases hc : noneCandidates repo_files with _ | ⟨f, t⟩
    · exact absurd hc hne
    · simp only [identify_gguf_models, hc]
      rfl
  · intro v u hstar hgguf hs
    simp only [identify_gguf_models, hs, hstar, hgguf]
    rfl
  · intro v hstar hgguf hs hne
    rcases hf : sortStr (folderFiles repo_files v) with _ | ⟨f, t⟩
    · exfalso
      have hp := sortStr_perm (folderFiles repo_files v)
      rw [hf] at hp
      exact hne (List.Perm.eq_nil hp.symm)
    · simp only [identify_gguf_models, hs, hstar, hgguf, hf]
      rfl
  · intro l
    refine ⟨sortStr_perm l, sortStr_sorted l, ?_⟩
    intro g hg
    rcases hs : sortStr l with _ | ⟨f, t⟩
    · rw [hs] at hg
      simp at hg
    · rw [hs] at hg
      have hsorted := sortStr_sorted l
      rw [hs] at hsorted
      exact sorted_head_min hsorted g hg

/-- C1 witness: each amended rule evaluated on a concrete listing. -/
theorem identify_gguf_models_rules_witness :
    identify_gguf_models ["b.gguf", "a.gguf"] (some "*") "" =
      .ok ⟨(sortStr (wildcardFiles ["b.gguf", "a.gguf"])).headD "", none,
        sortStr (wildcardFiles ["b.gguf", "a.gguf"])⟩ ∧
    identify_gguf_models ["b.gguf", "a.gguf"] (some "a.gguf") "" =
      .ok ⟨"a.gguf", none, []⟩ ∧
    identify_gguf_models ["mmproj-x.gguf", "m.gguf"] none "" =
      .ok ⟨(noneCandidates ["mmproj-x.gguf", "m.gguf"]).headD "", none, []⟩ ∧
    identify_gguf_models ["m-q4_0.gguf", "m-q5_k.gguf"] (some "Q4_0") "" =
      .ok ⟨"m-q4_0.gguf", none, []⟩ ∧
    identify_gguf_models ["Q4_0/s2.gguf", "Q4_0/s1.gguf"] (some "q4_0") "" =
      .ok ⟨(sortStr (folderFiles ["Q4_0/s2.gguf", "Q4_0/s1.gguf"] "q4_0")).headD "",
        none, sortStr (folderFiles ["Q4_0/s2.gguf", "Q4_0/s1.gguf"] "q4_0")⟩ :=
  ⟨(identify_gguf_models_rules _).1 (by decide),
    (identify_gguf_models_rules _).2.1 "a.gguf" rfl (by decide),
    (identify_gguf_models_rules _).2.2.1 (by decide),
    (identify_gguf_models_rules _).2.2.2.1 "Q4_0" "m-q4_0.gguf" (by decide) rfl
      (by decide),
    (identify_gguf_models_rules _).2.2.2.2.1 "q4_0" (by decide) rfl (by decide)
      (by decide)⟩

/-! ## C9: FLM model-field rewrite -/

/-- C9: every chat-completion request proxied through the FLM wrapped server
has its `model` field rewritten to the engine-recognized FLM identifier — the
checkpoint recorded when the server subprocess was launched — regardless of the
model name the client supplied; the rest of the request is forwarded
unchanged. -/
theorem flm_chat_completion_rewrites_model (s : FlmServerState)
    (checkpoint : String) (ctxSize : Nat) (req : ChatCompletionRequest) :
    FlmServer.chatCompletion
        (FlmServer.launchServerSubprocess s checkpoint ctxSize).1 req =
      { req with model := some checkpoint } := rfl

/-! ## C8: default llamacpp backend -/

/-- C8 counterexample: with `LEMONADE_LLAMACPP` set (to the empty string) the
claimed override does not happen — the platform default `vulkan` is returned,
not the variable's value. -/
theorem default_backend_env_counterexample :
    getDefaultLlamacppBackend (some "") "Linux" "x86_64" = "vulkan" ∧
    ("vulkan" : String) ≠ "" := ⟨rfl, by decide⟩

/-- C8 (amended): the default llamacpp backend is `metal` exactly when the
platform is Darwin with an arm64/aarch64 machine and `vulkan` otherwise, except
that when `LEMONADE_LLAMACPP` is set to a non-empty value, that value is used
instead (an empty value behaves as unset). -/
theorem default_backend_spec (envBackend : Option String)
    (system machine : String) :
    (∀ v, envBackend = some v → v ≠ "" →
      getDefaultLlamacppBackend envBackend system machine = v) ∧
    (envBackend = none ∨ envBackend = some "" →
      ((system = "Darwin" ∧ (lowerS machine = "arm64" ∨ lowerS machine = "aarch64") →
          getDefaultLlamacppBackend envBackend system machine = "metal") ∧
        (¬(system = "Darwin" ∧
            (lowerS machine = "arm64" ∨ lowerS machine = "aarch64")) →
          getDefaultLlamacppBackend envBackend system machine = "vulkan"))) := by
  constructor
  · intro v hv hne
    subst hv
    simp [getDefaultLlamacppBackend, hne]
  · intro henv
    constructor
    · intro hplat
      rcases henv with h | h <;> subst h <;>
        simp [getDefaultLlamacppBackend, hplat]
    · intro hplat
      rcases henv with h | h <;> subst h <;>
        simp [getDefaultLlamacppBackend, hplat]

/-- C8 witness: the amended rule evaluated at concrete platforms. -/
theorem default_backend_spec_witness :
    getDefaultLlamacppBackend (some "rocm") "Windows" "AMD64" = "rocm" ∧
    getDefaultLlamacppBackend none "Darwin" "arm64" = "metal" ∧
    getDefaultLlamacppBackend none "Windows" "AMD64" = "vulkan" :=
  ⟨(default_backend_spec (some "rocm") "Windows" "AMD64").1 "rocm" rfl (by decide),
    ((default_backend_spec none "Darwin" "arm64").2 (Or.inl rfl)).1
      ⟨rfl, Or.inl rfl⟩,
    ((default_backend_spec none "Windows" "AMD64").2 (Or.inl rfl)).2 (by decide)⟩

/-! ## C2: ambiguous quantization-suffix matches -/

/-- C2 counterexample: two `.gguf` files end with `<variant>.gguf`
case-insensitively, yet resolution succeeds (picking the non-mmproj one)
instead of failing with the ambiguous-variant error, because the suffix rule
first drops files containing `mmproj`. -/
theorem ambiguous_variant_counterexample :
    identify_gguf_models ["m-Q4.gguf", "mmproj-Q4.gguf"] (some "Q4") "" =
      .ok ⟨"m-Q4.gguf", none, []⟩ ∧
    endsWithS (lowerS "m-Q4.gguf") (lowerS ("Q4" ++ ".gguf")) = true ∧
    endsWithS (lowerS "mmproj-Q4.gguf") (lowerS ("Q4" ++ ".gguf")) = true ∧
    endsWithS "Q4" ".gguf" = false ∧ ("Q4" : String) ≠ "*" :=
  ⟨rfl, rfl, rfl, rfl, by decide⟩

/-- C2 (amended): for every repository listing and every non-wildcard variant
not ending in `.gguf`, if more than one `.gguf` file whose lowercased name does
not contain `mmproj` ends with `<variant>.gguf` case-insensitively, variant
resolution fails with the ambiguous-variant fatal error rather than selecting
any file. -/
theorem ambiguous_variant_fails (repo_files : List String) (v mmproj : String)
    (hstar : v ≠ "*") (hgguf : endsWithS v ".gguf" = false)
    (hlen : 1 < (suffixMatches repo_files v).length) :
    identify_gguf_models repo_files (some v) mmproj =
      .error .ambiguousVariant := by
  rcases hs : suffixMatches repo_files v with _ | ⟨a, _ | ⟨b, t⟩⟩
  · rw [hs] at hlen
    simp at hlen
  · rw [hs] at hlen
    simp at hlen
  · simp only [identify_gguf_models, hs, hstar, hgguf]
    rfl

/-- C2 witness: a repository with two files matching the `Q4` suffix fails
with the ambiguous-variant error. -/
theorem ambiguous_variant_fails_witness :
    identify_gguf_models ["a-Q4.gguf", "b-Q4.gguf"] (some "Q4") "" =
      .error .ambiguousVariant :=
  ambiguous_variant_fails ["a-Q4.gguf", "b-Q4.gguf"] "Q4" "" (by decide) rfl
    (by decide)

end Lemonade
